import Mathlib

/-!
Verification of `hrf_sar.py` (tstellanova/rffrecord), a HackRF SDR capture
script with a power-based squelch.  The Python source is shallowly embedded:

* the regex `[-+]?\d*\.\d+|\d+` used with `re.findall` (line 26/41) becomes
  an explicit left-to-right scanner with the same alternation and greediness,
* floats become rationals (`ℚ`),
* the per-line statistics loop of `capture_one_data_segment` (lines 28-54)
  becomes a fold over a `CaptureState`,
* the finalization (lines 56-63) becomes `capture_result`, returning
  `Except` since Python raises `ZeroDivisionError` on `total / 0.0`,
* the acquisition loop body of `main` (lines 172-210) becomes a pure
  function producing a list of filesystem events,
* the shared `meta_info_dict` mutated per retained segment (lines 134-170,
  199-205) becomes an explicit record threaded through the run.
-/

namespace HrfSar

/-! ## Telemetry parser: `re.findall(r"[-+]?\d*\.\d+|\d+", line)`

Python's regex engine scans left to right for the leftmost match; at each
position the left alternative `[-+]?\d*\.\d+` is tried first (greedy `[-+]?`
and `\d*`, with backtracking), then `\d+`.  Matches are non-overlapping and
scanning resumes right after each match.  `\d` is modelled as an ASCII digit
(the status lines are ASCII). -/

/-- Whether `c` is matched by the sign class `[-+]`. -/
def isSign (c : Char) : Bool := c = '-' || c = '+'

/-- Match `\d*\.\d+` at the head of `cs` (no sign): the greedy digit run
`\d*` is `takeWhile isDigit`; since a digit can never satisfy the following
literal `.`, the engine's backtracking over `\d*` can never succeed after the
greedy run fails, so the greedy run is exact.  After the `.`, `\d+` is a
greedy nonempty digit run. -/
def matchDecimalCore (cs : List Char) : Option (List Char × List Char) :=
  let ds := cs.takeWhile Char.isDigit
  let rest := cs.dropWhile Char.isDigit
  if rest.head? = some '.' then
    let f := rest.tail.takeWhile Char.isDigit
    if f.isEmpty then none
    else some (ds ++ '.' :: f, rest.tail.dropWhile Char.isDigit)
  else none

/-- Match the first alternative `[-+]?\d*\.\d+` at the head of `cs`:
greedy optional sign, then `matchDecimalCore`; if the signed attempt fails the
engine backtracks and retries without consuming the sign. -/
def matchSignedDecimal (cs : List Char) : Option (List Char × List Char) :=
  match cs with
  | [] => none
  | c :: rest =>
    if isSign c then
      match matchDecimalCore rest with
      | some (tok, r) => some (c :: tok, r)
      | none => matchDecimalCore cs
    else
      matchDecimalCore cs

/-- Match the second alternative `\d+` at the head of `cs` (greedy, unsigned:
the source regex carries the optional sign only on the decimal branch). -/
def matchInt (cs : List Char) : Option (List Char × List Char) :=
  let ds := cs.takeWhile Char.isDigit
  if ds.isEmpty then none else some (ds, cs.dropWhile Char.isDigit)

/-- One findall step: the match attempted at the current position. -/
def matchHere (cs : List Char) : Option (List Char × List Char) :=
  match matchSignedDecimal cs with
  | some m => some m
  | none => matchInt cs

/-- Fuelled scanner; every successful match consumes at least one character,
so fuel `cs.length` always suffices. -/
def findallFuel : Nat → List Char → List (List Char)
  | 0, _ => []
  | _ + 1, [] => []
  | fuel + 1, c :: rest =>
    match matchHere (c :: rest) with
    | some (tok, r) => tok :: findallFuel fuel r
    | none => findallFuel fuel rest

/-- `re.findall(r"[-+]?\d*\.\d+|\d+", s)` on the characters of one line. -/
def findall (cs : List Char) : List (List Char) :=
  findallFuel cs.length cs

/-! ## `float(token)` on the tokens this regex can produce -/

/-- Numeric value of a digit string read in base 10. -/
def digitsToNat : List Char → Nat :=
  List.foldl (fun acc c => 10 * acc + (c.toNat - '0'.toNat)) 0

/-- `float(t)` for an unsigned token `digits* '.' digits+` or `digits+`
(the run before the first `'.'` is the integer part, anything after it the
fractional part). -/
def parseUnsigned (t : List Char) : ℚ :=
  let ip := t.takeWhile (fun c => c ≠ '.')
  match t.dropWhile (fun c => c ≠ '.') with
  | _ :: frac => (digitsToNat ip : ℚ) + (digitsToNat frac : ℚ) / 10 ^ frac.length
  | [] => (digitsToNat ip : ℚ)

/-- `float(t)` with an optional leading sign. -/
def parseTok (t : List Char) : ℚ :=
  match t with
  | [] => 0
  | c :: rest =>
    if c = '-' then -(parseUnsigned rest)
    else if c = '+' then parseUnsigned rest
    else parseUnsigned t

/-! ## Power accumulator (`capture_one_data_segment`, lines 28-54) -/

/-- The local mutable state of `capture_one_data_segment`.  `avg_power` is
initialized to `0` and only assigned at finalization, so it is not part of
the per-line state.  `capture_start_utc` is modelled by the flag
`capture_started` (whether it has been set to some wall-clock value). -/
structure CaptureState where
  total_power : ℚ
  max_power : ℚ
  step_count : Nat
  line_count : Nat
  capture_started : Bool
  deriving Repr, DecidableEq

/-- Initial state, lines 28-33: `total_power = 0`, `max_power = -200`,
`step_count = 0`, `line_count = 0`, `capture_start_utc = None`. -/
def initState : CaptureState :=
  { total_power := 0, max_power := -200, step_count := 0,
    line_count := 0, capture_started := false }

/-- The statistics update on one valid 7-token record, lines 46-50. -/
def accumStep (s : CaptureState) (step_power : ℚ) : CaptureState :=
  { s with
    max_power := if step_power > s.max_power then step_power else s.max_power,
    total_power := s.total_power + step_power,
    step_count := s.step_count + 1 }

/-- One iteration of the `for line in proc.stdout` loop, lines 36-54:
the first seven lines (`line_count ≤ 6`) are skipped as startup banner;
afterwards the start timestamp is set (if unset) before parsing, the line's
numeric tokens are extracted, and only an exactly-seven-token line updates
the statistics.  The `continue` on the non-telemetry branch (line 53) skips
the `line_count += 1` at the bottom of the loop body, so past the banner
only telemetry lines increment `line_count` (without observable effect:
`line_count` is only ever compared against 6). -/
def processLine (s : CaptureState) (line : List Char) : CaptureState :=
  if s.line_count > 6 then
    let s1 := { s with capture_started := true }
    let toks := findall line
    if toks.length = 7 then
      let s2 := accumStep s1 (parseTok (toks.getD 3 []))
      { s2 with line_count := s2.line_count + 1 }
    else
      s1
  else
    { s with line_count := s.line_count + 1 }

/-- The whole stdout stream of one capture. -/
def runLines (lines : List (List Char)) : CaptureState :=
  lines.foldl processLine initState

/-- Finalization, lines 56-63.  On a nonzero return code the failure is
printed and `(max_power, avg_power)` is returned with `avg_power` still at
its initial `0`; on a zero return code `avg_power = total_power /
float(step_count)`, which raises `ZeroDivisionError` when `step_count = 0`
(modelled as `Except.error`). -/
def capture_result (rc : Int) (s : CaptureState) : Except Unit (ℚ × ℚ) :=
  if rc ≠ 0 then .ok (s.max_power, 0)
  else if s.step_count = 0 then .error ()
  else .ok (s.max_power, s.total_power / (s.step_count : ℚ))

/-- `capture_one_data_segment`, given the stdout lines the external process
produced and its exit code. -/
def capture_one_data_segment (lines : List (List Char)) (rc : Int) :
    Except Unit (ℚ × ℚ) :=
  capture_result rc (runLines lines)

/-! ## Squelch decision and segment lifecycle (`main`, lines 172-210) -/

/-- The retention thresholds from the CLI configuration (lines 79-88):
`--squelch_dbfs` (default `-29.0`) and `--delta_dbfs` (default `1.1`). -/
structure Config where
  squelch_dbfs : ℚ
  min_peak_gap_dbfs : ℚ
  deriving Repr, DecidableEq

/-- The default thresholds. -/
def defaultConfig : Config := { squelch_dbfs := -29, min_peak_gap_dbfs := 11 / 10 }

/-- Lines 182-185: `keep_segment = (max - avg >= delta) or (max > squelch)`. -/
def keep_decision (max_power avg_power : ℚ) (cfg : Config) : Bool :=
  (max_power - avg_power ≥ cfg.min_peak_gap_dbfs) || (max_power > cfg.squelch_dbfs)

/-- Filesystem actions the loop body performs.  `os.rename` (same directory)
and `shutil.move` (which deletes the source) have the same effect on which
paths exist, so both are `move`. -/
inductive FsEvent where
  | move (src dst : String)
  | writeMeta (path : String)
  | deleteTmp (path : String)
  deriving Repr, DecidableEq

/-- The paths of one segment, built from the file stem (lines 180, 190, 201):
`{tmp_path}{stem}.cs8`, `{out_path}{stem}.sigmf-data`,
`{out_path}{stem}.sigmf-meta`. -/
structure SegPaths where
  tmp_path : String
  out_path : String
  stem : String
  deriving Repr, DecidableEq

def SegPaths.tmpData (p : SegPaths) : String := p.tmp_path ++ p.stem ++ ".cs8"

def SegPaths.solidData (p : SegPaths) : String := p.out_path ++ p.stem ++ ".sigmf-data"

def SegPaths.metaOut (p : SegPaths) : String := p.out_path ++ p.stem ++ ".sigmf-meta"

/-- Lines 182-210: the keep/discard branch after one capture.  On keep, the
temporary data file is moved to the output directory and then the metadata
sidecar is written; on discard, the temporary file is removed and nothing
else happens. -/
def segment_cycle (cfg : Config) (p : SegPaths) (max_power avg_power : ℚ) :
    List FsEvent :=
  if keep_decision max_power avg_power cfg then
    [.move p.tmpData p.solidData, .writeMeta p.metaOut]
  else
    [.deleteTmp p.tmpData]

/-- One full iteration of the `while True` loop: run the capture (stdout
stream plus exit code), then the lifecycle.  A `ZeroDivisionError` in
finalization propagates (the iteration produces no filesystem events). -/
def run_one_segment (cfg : Config) (p : SegPaths) (lines : List (List Char))
    (rc : Int) : Except Unit (List FsEvent) :=
  match capture_one_data_segment lines rc with
  | .error e => .error e
  | .ok (max_power, avg_power) => .ok (segment_cycle cfg p max_power avg_power)

/-! ## Filesystem semantics for the ordering claim -/

/-- Effect of an event on the set of existing paths; a move succeeds (the
destination comes into existence, the source disappears) only when the
source exists. -/
def fsStep (fs : Finset String) : FsEvent → Finset String
  | .move src dst => if src ∈ fs then insert dst (fs.erase src) else fs
  | .writeMeta path => insert path fs
  | .deleteTmp path => fs.erase path

/-- `metaSafe dataPath fs tr`: along trace `tr` started in filesystem `fs`,
every metadata write happens at a moment when `dataPath` exists. -/
def metaSafe (dataPath : String) : Finset String → List FsEvent → Prop
  | _, [] => True
  | fs, e :: rest =>
    (match e with
     | .writeMeta _ => dataPath ∈ fs
     | _ => True) ∧ metaSafe dataPath (fsStep fs e) rest

/-- Whether a trace writes any metadata file. -/
def writesMeta (tr : List FsEvent) : Bool :=
  tr.any fun e => match e with | .writeMeta _ => true | _ => false

/-! ## Metadata document (`meta_info_dict`, lines 134-170)

The dictionary is built once before the loop and then mutated in place: each
retained segment overwrites `captures[0][DATETIME_KEY]` and
`captures[0]["stellanovat:max_power_dbfs"]` (lines 199-200) before the JSON
dump is written.  Only the fields are modelled; JSON serialization is
injective on this record, so two dumps agree iff the records agree. -/

structure GlobalFields where
  datatype : String
  sample_rate : Int
  hw : String
  author : String
  version : String
  description : String
  recorder : String
  antenna_type : String
  sdr : String
  sdr_sn : String
  lna : String
  lna_pwr : String
  deriving Repr, DecidableEq

structure CaptureEntry where
  start_index : Nat
  frequency : Int
  datetime : String
  if_gain_db : Int
  bb_gain_db : Int
  sdr_rx_amp_enabled : Int
  recorder_command : String
  max_power_dbfs : ℚ
  deriving Repr, DecidableEq

structure AnnotationEntry where
  start_index : Nat
  length_index : Int
  freq_upper_edge : Int
  freq_lower_edge : Int
  label : String
  deriving Repr, DecidableEq

structure MetaInfoDict where
  glob : GlobalFields
  capture : CaptureEntry
  annot : AnnotationEntry
  deriving Repr, DecidableEq

/-- Lines 199-200: the two in-place updates performed before every write. -/
def updateMeta (d : MetaInfoDict) (seg_start_time_utc : String)
    (max_power : ℚ) : MetaInfoDict :=
  { d with capture :=
      { d.capture with datetime := seg_start_time_utc,
                       max_power_dbfs := max_power } }

/-- The sequence of metadata documents written during one run, given the
initial dictionary and the (start-time, max-power) pairs of the retained
segments in order: the single dictionary is mutated, dumped, and carried to
the next iteration. -/
def writtenDocs (d : MetaInfoDict) : List (String × ℚ) → List MetaInfoDict
  | [] => []
  | (dt, m) :: rest =>
    let d1 := updateMeta d dt m
    d1 :: writtenDocs d1 rest

/-! ## Startup directory checks (`main` lines 89-100, `__main__` 213-214) -/

/-- What `main` does before any capture: `tmp_path` defaults to `out_path`
(lines 90-92); a missing `out_path` or `tmp_path` is reported and `main`
returns `-1` (lines 94-100); otherwise it proceeds into the capture loop. -/
inductive MainOutcome where
  | config_error_out
  | config_error_tmp
  | capture_loop
  deriving Repr, DecidableEq

def main_outcome (isdir : String → Bool) (out_path : String)
    (tmp_arg : Option String) : MainOutcome :=
  let tmp_path := tmp_arg.getD out_path
  if !isdir out_path then .config_error_out
  else if !isdir tmp_path then .config_error_tmp
  else .capture_loop

/-- The value `return`ed by the `main` function for each outcome (`none`
models the infinite capture loop, which never returns). -/
def main_return : MainOutcome → Option Int
  | .config_error_out => some (-1)
  | .config_error_tmp => some (-1)
  | .capture_loop => none

/-- Whether any capture is attempted for the outcome. -/
def performs_capture : MainOutcome → Bool
  | .capture_loop => true
  | _ => false

/-- Lines 213-214: `if __name__ == "__main__": main()` — the value returned
by `main` is discarded, so whenever `main` returns (rather than raising),
the interpreter exits with status `0`. -/
def process_exit_code (o : MainOutcome) : Int :=
  match main_return o with
  | some _ => 0
  | none => 0

/-! ## Single-shot mode

Modelled from the spec: the single-shot acquisition mode (capture exactly one
segment, always retain, write metadata unconditionally, then terminate) and
its file naming (a stem disambiguated by an incrementing numeric suffix that
probes for the first unused value) are described in spec sections 4.6 and 6
but are not implemented in `src/hrf_sar.py`, which contains only the
continuous mode; the code lives elsewhere in the repository. -/

/-- Modelled from the spec: four-digit zero-padded numeric suffix, as in the
spec's stems `..._0001` through `..._0005`. -/
def pad4 (n : Nat) : String :=
  if n < 10 then "000" ++ toString n
  else if n < 100 then "00" ++ toString n
  else if n < 1000 then "0" ++ toString n
  else toString n

/-- Modelled from the spec: the stem with numeric suffix `n`. -/
def stemWith (base : String) (n : Nat) : String := base ++ "_" ++ pad4 n

/-- Modelled from the spec: probe suffixes `start, start+1, …` and return the
first value whose stem is not already used, with enough fuel to pass every
used stem. -/
def probeFree (base : String) (used : List String) : Nat → Nat → Nat
  | 0, n => n
  | fuel + 1, n =>
    if used.contains (stemWith base n) then probeFree base used fuel (n + 1)
    else n

/-- Modelled from the spec: the fresh stem generated in single-shot mode for
an output directory already containing the stems in `used`. -/
def single_shot_next_stem (base : String) (used : List String) : String :=
  stemWith base (probeFree base used (used.length + 1) 1)

/-- Modelled from the spec: the single-shot run — one capture into the fresh
stem, unconditional promotion of the data file and unconditional metadata
write, then termination (the trace is exactly these events). -/
def single_shot_run (base : String) (used : List String)
    (tmp_path out_path : String) : List FsEvent :=
  let p : SegPaths :=
    { tmp_path := tmp_path, out_path := out_path,
      stem := single_shot_next_stem base used }
  [.move p.tmpData p.solidData, .writeMeta p.metaOut]

/-! ## Derived definitions used by the verification -/

/-- The accumulator run on the power values of the valid records alone
(the statistics update of lines 46-50, iterated from the initial state). -/
def accumRun (ps : List ℚ) : CaptureState :=
  ps.foldl accumStep initState

/-- Shape check: a literal `'.'` followed by a nonempty all-digit run. -/
def dotDigits : List Char → Bool
  | c :: frac => c = '.' && (!frac.isEmpty && frac.all Char.isDigit)
  | [] => false

/-- `digits* '.' digits+`: an unsigned decimal token of the regex's first
alternative (the run of digits before the first non-digit must be followed
by `'.'` and a nonempty run of digits). -/
def isUnsignedDec (t : List Char) : Bool :=
  dotDigits (t.dropWhile Char.isDigit)

/-- `[-+]?\d*\.\d+`: the first alternative of the source regex. -/
def isSignedDec : List Char → Bool
  | [] => false
  | c :: r => if isSign c then isUnsignedDec r else isUnsignedDec (c :: r)

/-- `\d+` with no sign: the second alternative of the source regex. -/
def isUnsignedInt (t : List Char) : Bool :=
  !t.isEmpty && t.all Char.isDigit

/-- A stdout stream for one failed capture: seven startup banner lines
followed by one valid telemetry line reporting average power `-2.0` dBfs. -/
def sampleFailLines : List (List Char) :=
  List.replicate 7 "banner".data ++ ["8.1 1.000 8.1 -2.0 14272 0 0".data]

/-- Concrete segment paths for evaluation. -/
def samplePaths : SegPaths :=
  { tmp_path := "/tmp/", out_path := "/recordings/",
    stem := "hrf_sar_5405_15s_20240915_042813Z" }

/-- The `meta_info_dict` literal of lines 134-170, as a function of the
values interpolated into it. -/
def meta_info_dict (sample_rate_hz ctr_freq_hz : Int) (n_samples : Int)
    (freq_upper_edge freq_lower_edge : Int) (sdr_sn : String)
    (sigmf_version : String) (cmd_str_stem : String)
    (basic_capture_start_utc : String) (if_lna_gain_db bb_gain_db : Int) :
    MetaInfoDict :=
  { glob :=
      { datatype := "ci8", sample_rate := sample_rate_hz,
        hw := "HackRF, LNA, antenna", author := "Todd Stellanova",
        version := sigmf_version,
        description := "SAR recorded using hackrf_transfer",
        recorder := "hackrf_transfer", antenna_type := "Wideband",
        sdr := "HackRF", sdr_sn := sdr_sn, lna := "6GHz 20dB",
        lna_pwr := "bias-tee" },
    capture :=
      { start_index := 0, frequency := ctr_freq_hz,
        datetime := basic_capture_start_utc, if_gain_db := if_lna_gain_db,
        bb_gain_db := bb_gain_db, sdr_rx_amp_enabled := 1,
        recorder_command := cmd_str_stem, max_power_dbfs := 0 },
    annot :=
      { start_index := 0, length_index := n_samples,
        freq_upper_edge := freq_upper_edge, freq_lower_edge := freq_lower_edge,
        label := "SAR" } }

/-- The dictionary built by `main` with the default CLI arguments
(`fc = 5405.5 MHz`, 20 MHz sample rate, 15 s duration, no serial given). -/
def exampleMeta : MetaInfoDict :=
  meta_info_dict 20000000 5405500000 300000000 5415500000 5395500000
    "None" "1.2.6" "hackrf_transfer -f 5405500000 -a 1 -l 40 -g 24 -b 20000000 -s 20000000 -n 300000000  -B "
    "2024-09-15T04:28:13Z" 40 24

/-- Two retained segments' (start time, max power) pairs. -/
def exampleSegs : List (String × ℚ) :=
  [("2024-09-15T04:28:13Z", -2), ("2024-09-15T04:28:29Z", -10)]

/-- A capture state that is past the startup banner (`line_count = 7`). -/
def sampleState : CaptureState :=
  { initState with line_count := 7 }

/-! ## Helper lemmas -/

theorem if_gt_eq_max (m p : ℚ) : (if p > m then p else m) = max m p := by
  rcases le_or_lt p m with h | h
  · rw [if_neg (not_lt.2 h), max_eq_left h]
  · rw [if_pos h, max_eq_right h.le]

theorem accumStep_max (s : CaptureState) (p : ℚ) :
    (accumStep s p).max_power = max s.max_power p := by
  simp only [accumStep]
  exact if_gt_eq_max _ _

theorem foldl_accumStep_max (ps : List ℚ) :
    ∀ s : CaptureState, (ps.foldl accumStep s).max_power = ps.foldl max s.max_power := by
  induction ps with
  | nil => intro s; rfl
  | cons p ps ih =>
    intro s
    rw [List.foldl_cons, List.foldl_cons, ih, accumStep_max]

theorem foldl_accumStep_total (ps : List ℚ) :
    ∀ s : CaptureState, (ps.foldl accumStep s).total_power = s.total_power + ps.sum := by
  induction ps with
  | nil => intro s; simp
  | cons p ps ih =>
    intro s
    rw [List.foldl_cons, ih, List.sum_cons]
    simp [accumStep]
    ring

theorem foldl_accumStep_count (ps : List ℚ) :
    ∀ s : CaptureState, (ps.foldl accumStep s).step_count = s.step_count + ps.length := by
  induction ps with
  | nil => intro s; simp
  | cons p ps ih =>
    intro s
    rw [List.foldl_cons, ih, List.length_cons]
    simp [accumStep]
    ring

theorem foldl_accumStep_line (ps : List ℚ) :
    ∀ s : CaptureState, (ps.foldl accumStep s).line_count = s.line_count := by
  induction ps with
  | nil => intro s; rfl
  | cons p ps ih => intro s; rw [List.foldl_cons, ih]; rfl

theorem foldl_accumStep_started (ps : List ℚ) :
    ∀ s : CaptureState, (ps.foldl accumStep s).capture_started = s.capture_started := by
  induction ps with
  | nil => intro s; rfl
  | cons p ps ih => intro s; rw [List.foldl_cons, ih]; rfl

theorem accumStep_right_comm (z : CaptureState) (x y : ℚ) :
    accumStep (accumStep z x) y = accumStep (accumStep z y) x := by
  cases z
  simp only [accumStep, if_gt_eq_max, CaptureState.mk.injEq]
  refine ⟨by ring, ?_, trivial, trivial, trivial⟩
  rw [max_assoc, max_assoc, max_comm x y]

theorem le_foldl_max_self (ps : List ℚ) : ∀ a : ℚ, a ≤ ps.foldl max a := by
  induction ps with
  | nil => intro a; exact le_refl a
  | cons p ps ih =>
    intro a
    rw [List.foldl_cons]
    exact le_trans (le_max_left a p) (ih (max a p))

theorem foldl_max_ge (ps : List ℚ) :
    ∀ a : ℚ, ∀ p ∈ ps, p ≤ ps.foldl max a := by
  induction ps with
  | nil => intro a p hp; exact absurd hp (List.not_mem_nil p)
  | cons q ps ih =>
    intro a p hp
    rw [List.foldl_cons]
    rcases List.mem_cons.1 hp with rfl | hp
    · exact le_trans (le_max_right a p) (le_foldl_max_self ps (max a p))
    · exact ih (max a q) p hp

theorem foldl_max_mem (ps : List ℚ) :
    ∀ a : ℚ, ps.foldl max a ∈ ps ∨ ps.foldl max a = a := by
  induction ps with
  | nil => intro a; exact Or.inr rfl
  | cons p ps ih =>
    intro a
    rw [List.foldl_cons]
    rcases ih (max a p) with h | h
    · exact Or.inl (List.mem_cons_of_mem p h)
    · rcases le_total a p with hap | hap
      · rw [h, max_eq_right hap]; exact Or.inl (List.mem_cons_self _ _)
      · rw [h, max_eq_left hap]; exact Or.inr rfl

theorem takeWhile_all {p : Char → Bool} (l : List Char) :
    (l.takeWhile p).all p = true := by
  rw [List.all_eq_true]
  intro x hx
  exact List.mem_takeWhile_imp hx

theorem dropWhile_digits_append {ds : List Char} (h : ds.all Char.isDigit = true)
    (l : List Char) :
    (ds ++ '.' :: l).dropWhile Char.isDigit = '.' :: l := by
  induction ds with
  | nil => rw [List.nil_append, List.dropWhile_cons, if_neg (by decide)]
  | cons d ds ih =>
    rw [List.all_cons, Bool.and_eq_true] at h
    rw [List.cons_append, List.dropWhile_cons, if_pos h.1]
    exact ih h.2

theorem isSignedDec_cons (c : Char) (l : List Char) :
    isSignedDec (c :: l) =
      if isSign c = true then isUnsignedDec l else isUnsignedDec (c :: l) := rfl

theorem isUnsignedDec_concat {ds f : List Char} (hds : ds.all Char.isDigit = true)
    (hf : f.all Char.isDigit = true) (hne : f.isEmpty = false) :
    isUnsignedDec (ds ++ '.' :: f) = true := by
  unfold isUnsignedDec
  rw [dropWhile_digits_append hds]
  simp [dotDigits, hne, hf]

theorem isSignedDec_of_unsigned {tok : List Char} (h : isUnsignedDec tok = true) :
    isSignedDec tok = true := by
  cases tok with
  | nil => exact absurd h (by decide)
  | cons c l =>
    by_cases hc : isSign c = true
    · exfalso
      have hcd : Char.isDigit c = false := by
        rcases (by simpa [isSign] using hc : c = '-' ∨ c = '+') with rfl | rfl <;> decide
      unfold isUnsignedDec at h
      rw [List.dropWhile_cons, if_neg (by simp [hcd])] at h
      rcases (by simpa [isSign] using hc : c = '-' ∨ c = '+') with rfl | rfl <;>
        simp [dotDigits] at h
    · rw [isSignedDec_cons, if_neg hc]
      exact h

theorem matchDecimalCore_sound {cs tok r : List Char}
    (h : matchDecimalCore cs = some (tok, r)) :
    isUnsignedDec tok = true := by
  simp only [matchDecimalCore] at h
  by_cases hd : (cs.dropWhile Char.isDigit).head? = some '.'
  · rw [if_pos hd] at h
    by_cases hemp :
        ((cs.dropWhile Char.isDigit).tail.takeWhile Char.isDigit).isEmpty = true
    · rw [if_pos hemp] at h
      exact absurd h (by simp)
    · rw [if_neg hemp] at h
      simp only [Option.some.injEq, Prod.mk.injEq] at h
      rw [← h.1]
      have hne :
          ((cs.dropWhile Char.isDigit).tail.takeWhile Char.isDigit).isEmpty = false := by
        simp only [Bool.not_eq_true] at hemp
        exact hemp
      exact isUnsignedDec_concat (takeWhile_all cs) (takeWhile_all _) hne
  · rw [if_neg hd] at h
    exact absurd h (by simp)

theorem matchSignedDecimal_sound {cs tok r : List Char}
    (h : matchSignedDecimal cs = some (tok, r)) :
    isSignedDec tok = true := by
  rcases cs with _ | ⟨c, rest⟩
  · exact absurd h (by simp [matchSignedDecimal])
  · simp only [matchSignedDecimal] at h
    by_cases hc : isSign c = true
    · rw [if_pos hc] at h
      split at h
      · next tok0 r0 hm =>
          simp only [Option.some.injEq, Prod.mk.injEq] at h
          rw [← h.1, isSignedDec_cons, if_pos hc]
          exact matchDecimalCore_sound hm
      · exact isSignedDec_of_unsigned (matchDecimalCore_sound h)
    · rw [if_neg hc] at h
      exact isSignedDec_of_unsigned (matchDecimalCore_sound h)

theorem matchInt_sound {cs tok r : List Char} (h : matchInt cs = some (tok, r)) :
    isUnsignedInt tok = true := by
  simp only [matchInt] at h
  by_cases hemp : (cs.takeWhile Char.isDigit).isEmpty = true
  · rw [if_pos hemp] at h
    exact absurd h (by simp)
  · rw [if_neg hemp] at h
    simp only [Option.some.injEq, Prod.mk.injEq] at h
    rw [← h.1]
    unfold isUnsignedInt
    simp only [Bool.not_eq_true] at hemp
    simp [hemp, takeWhile_all]

theorem matchHere_sound {cs tok r : List Char} (h : matchHere cs = some (tok, r)) :
    isSignedDec tok = true ∨ isUnsignedInt tok = true := by
  unfold matchHere at h
  split at h
  · next m hm =>
      rw [Option.some.injEq] at h
      subst h
      exact Or.inl (matchSignedDecimal_sound hm)
  · exact Or.inr (matchInt_sound h)

theorem findallFuel_sound :
    ∀ (fuel : Nat) (cs tok : List Char), tok ∈ findallFuel fuel cs →
      isSignedDec tok = true ∨ isUnsignedInt tok = true := by
  intro fuel
  induction fuel with
  | zero => intro cs tok h; exact absurd h (by simp [findallFuel])
  | succ n ih =>
    intro cs tok h
    rcases cs with _ | ⟨c, rest⟩
    · exact absurd h (by simp [findallFuel])
    · simp only [findallFuel] at h
      split at h
      · next tok0 r0 hm =>
          rcases List.mem_cons.1 h with rfl | h'
          · exact matchHere_sound hm
          · exact ih r0 tok h'
      · exact ih rest tok h

theorem findall_sound {line tok : List Char} (h : tok ∈ findall line) :
    isSignedDec tok = true ∨ isUnsignedInt tok = true :=
  findallFuel_sound line.length line tok h

theorem updateMeta_updateMeta (d : MetaInfoDict) (a c : String) (b e : ℚ) :
    updateMeta (updateMeta d a b) c e = updateMeta d c e := rfl

theorem writtenDocs_length (d : MetaInfoDict) (segs : List (String × ℚ)) :
    (writtenDocs d segs).length = segs.length := by
  induction segs generalizing d with
  | nil => rfl
  | cons sgm rest ih =>
    obtain ⟨dt, m⟩ := sgm
    simp only [writtenDocs, List.length_cons, ih]

theorem writtenDocs_getD (segs : List (String × ℚ)) :
    ∀ (d : MetaInfoDict) (i : Nat), i < segs.length →
      (writtenDocs d segs).getD i d =
        updateMeta d (segs.getD i ("", 0)).1 (segs.getD i ("", 0)).2 := by
  induction segs with
  | nil => intro d i h; exact absurd h (by simp)
  | cons sgm rest ih =>
    obtain ⟨dt, m⟩ := sgm
    intro d i h
    cases i with
    | zero => rfl
    | succ j =>
      have hj : j < rest.length := by simpa using h
      have hlen : j < (writtenDocs (updateMeta d dt m) rest).length := by
        rw [writtenDocs_length]; exact hj
      have hdef :
          (writtenDocs (updateMeta d dt m) rest).getD j d =
            (writtenDocs (updateMeta d dt m) rest).getD j (updateMeta d dt m) := by
        rw [List.getD_eq_getElem _ _ hlen, List.getD_eq_getElem _ _ hlen]
      calc (writtenDocs d ((dt, m) :: rest)).getD (j + 1) d
          = (writtenDocs (updateMeta d dt m) rest).getD j d := by
            simp only [writtenDocs, List.getD_cons_succ]
        _ = (writtenDocs (updateMeta d dt m) rest).getD j (updateMeta d dt m) := hdef
        _ = updateMeta (updateMeta d dt m) (rest.getD j ("", 0)).1
              (rest.getD j ("", 0)).2 := ih (updateMeta d dt m) j hj
        _ = updateMeta d (((dt, m) :: rest).getD (j + 1) ("", 0)).1
              (((dt, m) :: rest).getD (j + 1) ("", 0)).2 := by
            rw [updateMeta_updateMeta, List.getD_cons_succ]

/-! ## The claims -/

attribute [local semireducible] Rat.add Rat.sub Rat.mul Rat.inv

/-- C1, counterexample: with exit code 2 and a stdout stream whose telemetry
reports average power `-2.0` dBfs, the loop body does not discard the
segment: it moves the data file into the output directory and writes the
metadata sidecar, and no deletion of the temporary file occurs. -/
theorem capture_failure_retains_segment_cex :
    run_one_segment defaultConfig samplePaths sampleFailLines 2 =
      .ok [FsEvent.move samplePaths.tmpData samplePaths.solidData,
           FsEvent.writeMeta samplePaths.metaOut] ∧
    writesMeta [FsEvent.move samplePaths.tmpData samplePaths.solidData,
                FsEvent.writeMeta samplePaths.metaOut] = true ∧
    FsEvent.deleteTmp samplePaths.tmpData ∉
      [FsEvent.move samplePaths.tmpData samplePaths.solidData,
       FsEvent.writeMeta samplePaths.metaOut] := by
  refine ⟨by rfl, by decide, by decide⟩

/-- C1 (amended): on a nonzero exit code the squelch decision is not
bypassed — the loop body applies the usual squelch decision to the partial
`max_power` and the never-finalized average of `0`, and discards the segment
only if that decision rejects it (so partial statistics can lead to the
segment being retained and metadata written). -/
theorem capture_failure_applies_squelch (cfg : Config) (p : SegPaths)
    (lines : List (List Char)) (rc : Int) (h : rc ≠ 0) :
    run_one_segment cfg p lines rc =
      .ok (segment_cycle cfg p (runLines lines).max_power 0) := by
  unfold run_one_segment capture_one_data_segment capture_result
  rw [if_pos h]

/-- Witness for C1's amended theorem at exit code 2 with an empty stream. -/
theorem capture_failure_applies_squelch_witness :
    (2 : Int) ≠ 0 ∧
    run_one_segment defaultConfig samplePaths [] 2 =
      .ok (segment_cycle defaultConfig samplePaths (runLines []).max_power 0) :=
  ⟨by decide, capture_failure_applies_squelch defaultConfig samplePaths [] 2 (by decide)⟩

/-- C2: if zero valid telemetry records were observed, finalization (exit
code 0) is the `ZeroDivisionError` outcome, never a returned pair — in
particular never a computed average of `0` — for every stdout stream. -/
theorem zero_records_finalization_error (lines : List (List Char))
    (h : (runLines lines).step_count = 0) :
    capture_one_data_segment lines 0 = .error () ∧
    ∀ mp ap : ℚ, capture_one_data_segment lines 0 ≠ .ok (mp, ap) := by
  unfold capture_one_data_segment capture_result
  rw [if_neg (by simp), if_pos h]
  exact ⟨rfl, fun mp ap => by simp⟩

/-- Witness for C2 on the empty stream. -/
theorem zero_records_finalization_error_witness :
    (runLines ([] : List (List Char))).step_count = 0 ∧
    capture_one_data_segment [] 0 = .error () :=
  ⟨rfl, (zero_records_finalization_error [] rfl).1⟩

/-- C3: the segment is kept iff the peak gap reaches the minimum peak-gap
threshold or the max power exceeds the squelch threshold; with the default
thresholds (squelch `-29.0`, gap `1.1`), stats `(-2.0, -5.0)` are kept and
stats `(-30.0, -30.5)` are not. -/
theorem squelch_decision_spec :
    (∀ (mp ap : ℚ) (cfg : Config),
      keep_decision mp ap cfg = true ↔
        (mp - ap ≥ cfg.min_peak_gap_dbfs ∨ mp > cfg.squelch_dbfs)) ∧
    keep_decision (-2) (-5) defaultConfig = true ∧
    keep_decision (-30) (-305/10) defaultConfig = false := by
  refine ⟨fun mp ap cfg => ?_, by decide, by decide⟩
  simp [keep_decision]

/-- C4 (modelled from the spec, single-shot mode): the run captures one
segment, unconditionally promotes its data file and writes its metadata
(always retained), and terminates with exactly that trace; with stems
`_0001` – `_0004` already present the fresh stem is `_0005`. -/
theorem single_shot_mode_spec :
    (∀ (base : String) (used : List String) (tmp out : String),
      single_shot_run base used tmp out =
        [FsEvent.move (tmp ++ single_shot_next_stem base used ++ ".cs8")
           (out ++ single_shot_next_stem base used ++ ".sigmf-data"),
         FsEvent.writeMeta (out ++ single_shot_next_stem base used ++ ".sigmf-meta")] ∧
      writesMeta (single_shot_run base used tmp out) = true) ∧
    single_shot_next_stem "hrf_sar_5405_15s"
        ["hrf_sar_5405_15s_0001", "hrf_sar_5405_15s_0002",
         "hrf_sar_5405_15s_0003", "hrf_sar_5405_15s_0004"] =
      "hrf_sar_5405_15s_0005" := by
  refine ⟨fun base used tmp out => ⟨rfl, rfl⟩, by decide⟩

/-- C5, counterexample: for the single record `-300` (below the `-200`
sentinel), the finalized max power is the sentinel `-200`, not the maximum
`-300` of the records. -/
theorem max_power_sentinel_cex :
    (accumRun [(-300 : ℚ)]).max_power = -200 ∧
    (accumRun [(-300 : ℚ)]).max_power ≠ -300 := by
  refine ⟨by decide, by decide⟩

/-- C5 (amended): for any nonempty record sequence the finalized average is
`(Σ pᵢ)/N` and the finalized max is the maximum of the sentinel `-200` and
the `pᵢ` (it bounds every record, is a record or the sentinel, and is at
least the sentinel); both statistics are independent of input order. -/
theorem accumulator_stats (ps : List ℚ) (h : ps ≠ []) :
    capture_result 0 (accumRun ps) =
      .ok ((accumRun ps).max_power, ps.sum / (ps.length : ℚ)) ∧
    (∀ p ∈ ps, p ≤ (accumRun ps).max_power) ∧
    ((accumRun ps).max_power ∈ ps ∨ (accumRun ps).max_power = -200) ∧
    (-200 : ℚ) ≤ (accumRun ps).max_power ∧
    ∀ qs : List ℚ, ps.Perm qs → accumRun ps = accumRun qs := by
  have hmax : (accumRun ps).max_power = ps.foldl max (-200) :=
    foldl_accumStep_max ps initState
  have htot : (accumRun ps).total_power = ps.sum := by
    have h0 := foldl_accumStep_total ps initState
    simpa [accumRun, initState] using h0
  have hcnt : (accumRun ps).step_count = ps.length := by
    have h0 := foldl_accumStep_count ps initState
    simpa [accumRun, initState] using h0
  refine ⟨?_, ?_, ?_, ?_, ?_⟩
  · unfold capture_result
    rw [if_neg (by simp), if_neg (by simp [hcnt, List.length_eq_zero, h]),
      htot, hcnt]
  · intro p hp
    rw [hmax]
    exact foldl_max_ge ps (-200) p hp
  · rw [hmax]
    exact foldl_max_mem ps (-200)
  · rw [hmax]
    exact le_foldl_max_self ps (-200)
  · intro qs hperm
    unfold accumRun
    exact hperm.foldl_eq' (fun x _ y _ z => accumStep_right_comm z x y) initState

/-- Witness for C5's amended theorem on the records `[-2, -10]`. -/
theorem accumulator_stats_witness :
    ([(-2 : ℚ), -10] ≠ []) ∧
    capture_result 0 (accumRun [(-2 : ℚ), -10]) =
      .ok ((accumRun [(-2 : ℚ), -10]).max_power,
        [(-2 : ℚ), -10].sum / (([(-2 : ℚ), -10].length : ℕ) : ℚ)) :=
  ⟨by decide, (accumulator_stats [(-2 : ℚ), -10] (by decide)).1⟩

/-- C6: starting from any filesystem containing the temporary data file, the
loop-body trace writes metadata only at a moment when the final data path
exists (the move precedes it and has succeeded), and a discarded segment's
trace writes no metadata at all. -/
theorem meta_written_after_move (cfg : Config) (p : SegPaths)
    (mp ap : ℚ) (fs : Finset String) (h : p.tmpData ∈ fs) :
    metaSafe p.solidData fs (segment_cycle cfg p mp ap) ∧
    (keep_decision mp ap cfg = false →
      writesMeta (segment_cycle cfg p mp ap) = false) := by
  unfold segment_cycle
  by_cases hk : keep_decision mp ap cfg = true
  · rw [if_pos hk]
    refine ⟨⟨trivial, ?_, trivial⟩, fun hf => absurd hk (by simp [hf])⟩
    show p.solidData ∈
      if p.tmpData ∈ fs then insert p.solidData (fs.erase p.tmpData) else fs
    rw [if_pos h]
    exact Finset.mem_insert_self _ _
  · rw [if_neg hk]
    exact ⟨⟨trivial, trivial⟩, fun _ => rfl⟩

/-- Witness for C6 with the sample paths and stats `(-2, -5)`. -/
theorem meta_written_after_move_witness :
    samplePaths.tmpData ∈ ({samplePaths.tmpData} : Finset String) ∧
    metaSafe samplePaths.solidData {samplePaths.tmpData}
      (segment_cycle defaultConfig samplePaths (-2) (-5)) :=
  ⟨Finset.mem_singleton_self _,
   (meta_written_after_move defaultConfig samplePaths (-2) (-5)
     {samplePaths.tmpData} (Finset.mem_singleton_self _)).1⟩

/-- C7, counterexample: on the line `-5` the extracted token is `5` — the
sign of a bare integer is not preserved (only the decimal alternative of the
regex carries the optional sign). -/
theorem integer_sign_dropped_cex :
    findall ['-', '5'] = [['5']] ∧ ([['5']] : List (List Char)) ≠ [['-', '5']] := by
  refine ⟨by decide, by decide⟩

/-- C7 (amended): every extracted token is a signed decimal or an unsigned
integer (signs are preserved on decimals only), and on any line with exactly
seven tokens the power consumed by the accumulator is the fourth token
parsed as a float. -/
theorem telemetry_tokens_spec (line : List Char) :
    (∀ tok ∈ findall line, isSignedDec tok = true ∨ isUnsignedInt tok = true) ∧
    (∀ s : CaptureState, s.line_count > 6 → (findall line).length = 7 →
      (processLine s line).total_power =
        s.total_power + parseTok ((findall line).getD 3 [])) := by
  refine ⟨fun tok h => findall_sound h, fun s h6 h7 => ?_⟩
  simp only [processLine, if_pos h6, if_pos h7]
  rfl

/-- Witness for C7's amended theorem on the sample telemetry line. -/
theorem telemetry_tokens_spec_witness :
    sampleState.line_count > 6 ∧
    (findall "8.1 1.000 8.1 -2.0 14272 0 0".data).length = 7 ∧
    (processLine sampleState "8.1 1.000 8.1 -2.0 14272 0 0".data).total_power =
      sampleState.total_power +
        parseTok ((findall "8.1 1.000 8.1 -2.0 14272 0 0".data).getD 3 []) :=
  ⟨by decide, by decide,
   (telemetry_tokens_spec "8.1 1.000 8.1 -2.0 14272 0 0".data).2 sampleState
     (by decide) (by decide)⟩

/-- C8: a line whose extracted token count is not seven leaves the power
statistics (`max_power`, `total_power`, `step_count`) unchanged; the stream
loop continues without error. -/
theorem non_telemetry_line_skipped (s : CaptureState) (line : List Char)
    (h : (findall line).length ≠ 7) :
    (processLine s line).max_power = s.max_power ∧
    (processLine s line).total_power = s.total_power ∧
    (processLine s line).step_count = s.step_count := by
  by_cases hl : s.line_count > 6
  · simp [processLine, hl, h]
  · simp [processLine, hl]

/-- Witness for C8 on a banner line. -/
theorem non_telemetry_line_skipped_witness :
    (findall "banner".data).length ≠ 7 ∧
    ((processLine sampleState "banner".data).max_power = sampleState.max_power ∧
     (processLine sampleState "banner".data).total_power = sampleState.total_power ∧
     (processLine sampleState "banner".data).step_count = sampleState.step_count) :=
  ⟨by decide, non_telemetry_line_skipped sampleState "banner".data (by decide)⟩

/-- C9: with a nonexistent output directory (or a nonexistent temporary
directory) the script reports the problem, performs no capture and its
`main` returns `-1`, but the `__main__` guard discards that value, so the
interpreter's exit status is `0`, not the nonzero code the spec requires. -/
theorem missing_dir_exit_code :
    (main_outcome (fun _ => false) "../../baseband/sar-recordings/" none =
        MainOutcome.config_error_out ∧
      main_return (main_outcome (fun _ => false) "../../baseband/sar-recordings/" none) =
        some (-1) ∧
      performs_capture (main_outcome (fun _ => false) "../../baseband/sar-recordings/" none) =
        false ∧
      process_exit_code (main_outcome (fun _ => false) "../../baseband/sar-recordings/" none) =
        0) ∧
    (main_outcome (fun s => s == "/out/") "/out/" (some "/ramdisk/") =
        MainOutcome.config_error_tmp ∧
      main_return (main_outcome (fun s => s == "/out/") "/out/" (some "/ramdisk/")) =
        some (-1) ∧
      performs_capture (main_outcome (fun s => s == "/out/") "/out/" (some "/ramdisk/")) =
        false ∧
      process_exit_code (main_outcome (fun s => s == "/out/") "/out/" (some "/ramdisk/")) =
        0) :=
  ⟨⟨rfl, rfl, rfl, rfl⟩, ⟨by decide, by decide, by decide, by decide⟩⟩

/-- C10: during one run the `i`-th written metadata document equals the
initial shared dictionary with only the capture datetime and max power
replaced by the `i`-th retained segment's own values — so consecutive
documents differ only in those two fields and never carry a previous
segment's values. -/
theorem metadata_docs_per_segment (d : MetaInfoDict) (segs : List (String × ℚ))
    (i : Nat) (h : i < segs.length) :
    (writtenDocs d segs).length = segs.length ∧
    (writtenDocs d segs).getD i d =
      updateMeta d (segs.getD i ("", 0)).1 (segs.getD i ("", 0)).2 ∧
    ((writtenDocs d segs).getD i d).glob = d.glob ∧
    ((writtenDocs d segs).getD i d).annot = d.annot := by
  have hmain := writtenDocs_getD segs d i h
  exact ⟨writtenDocs_length d segs, hmain,
    by rw [hmain]; rfl, by rw [hmain]; rfl⟩

/-- Witness for C10 on the example run of two retained segments. -/
theorem metadata_docs_per_segment_witness :
    1 < exampleSegs.length ∧
    (writtenDocs exampleMeta exampleSegs).getD 1 exampleMeta =
      updateMeta exampleMeta (exampleSegs.getD 1 ("", 0)).1
        (exampleSegs.getD 1 ("", 0)).2 :=
  ⟨by decide, (metadata_docs_per_segment exampleMeta exampleSegs 1 (by decide)).2.1⟩

end HrfSar
